import Mathlib

/-!
Verification of the URL-shortener service in src/main.rs.

The persistent store is the Postgres table created by
CREATE TABLE IF NOT EXISTS urls (id VARCHAR(6), url TEXT NOT NULL UNIQUE).
We embed the table as a list of rows, the SQL statements as pure list
functions, and the random identifier source of the nanoid crate as an
explicit stream of random bytes. The unbounded collision-retry loop of
PgState.shorten is modelled with explicit fuel; running out of fuel
returns none, which never happens for adequate fuel and models the
unbounded loop faithfully on every terminating run.
-/

set_option autoImplicit false

namespace Shortener

/-- A persisted row of the table urls. The schema declares url as
NOT NULL UNIQUE; note that it declares no uniqueness and no primary key
on id. -/
structure Row where
  id : String
  url : String
deriving DecidableEq, Repr

/-- The table urls, as the list of its rows in insertion order. -/
abbrev Table := List Row

/-- Embeds SELECT COUNT(id) FROM URLS WHERE id = $1. The table name URLS
is case-folded to urls by Postgres, so it denotes the same table; ids are
never null, so COUNT(id) counts the matching rows. -/
def countId (st : Table) (i : String) : Nat :=
  (st.filter (fun r => r.id == i)).length

/-- The number of rows whose url column equals u. -/
def countUrl (st : Table) (u : String) : Nat :=
  (st.filter (fun r => r.url == u)).length

/-- The first row whose id column equals i, as returned by fetch_one on
SELECT ... WHERE id = $1. -/
def findIdRow (st : Table) (i : String) : Option Row :=
  st.find? (fun r => r.id == i)

/-- The row whose url column equals u, located by the unique index on url
during ON CONFLICT(url) resolution. -/
def findUrlRow (st : Table) (u : String) : Option Row :=
  st.find? (fun r => r.url == u)

/-- The variants of sqlx::Error that this service can observe: fetch_one
on an empty result set yields RowNotFound, and any failure of the
connection or of statement execution yields a database-side error. -/
inductive SqlErr where
  | rowNotFound
  | persistenceFailure (msg : String)
deriving DecidableEq, Repr

/-- The error enum ShortenError of the service: SqlError wraps a
sqlx::Error, IoError wraps std::io::Error, StatusCode wraps the
StatusCodeError used by the handlers. -/
inductive ShortenError where
  | sqlError (e : SqlErr)
  | ioError (msg : String)
  | statusCodeError (code : Nat)
deriving DecidableEq, Repr

/-- The default SAFE alphabet of the nanoid crate: 64 URL-safe symbols,
in the order declared by the crate. -/
def safeAlphabet : List Char :=
  "_-0123456789abcdefghijklmnopqrstuvwxyzABCDEFGHIJKLMNOPQRSTUVWXYZ".toList

/-- One evaluation of nanoid!(6): six random bytes, each masked to an
index below 64 (the alphabet size is a power of two, so the crate masks
rather than rejects), select six characters of the SAFE alphabet.
callIdx numbers the successive evaluations so that each draws fresh
bytes from the stream. -/
def nanoid6 (bytes : Nat → Nat) (callIdx : Nat) : String :=
  String.mk ((List.range 6).map
    (fun j => safeAlphabet.getD (bytes (6 * callIdx + j) % 64) '_'))

/-- A constant random-byte stream, for concrete runs. -/
def constStream (n : Nat) : Nat → Nat := fun _ => n

/-- The identity random-byte stream, for concrete runs that need the
successive nanoid evaluations to differ. -/
def natStream : Nat → Nat := fun n => n

/-- The collision-retry loop of PgState.shorten: generate a candidate
with nanoid!(6), fetch COUNT(id) for it, and regenerate while the count
equals 1 (the loop condition in the source is flag.0 == 1). Returns the
accepted candidate together with the next free call index, or none when
the fuel runs out. -/
def genId (bytes : Nat → Nat) (st : Table) : Nat → Nat → Option (String × Nat)
  | 0, _ => none
  | Nat.succ fuel, k =>
      if countId st (nanoid6 bytes k) == 1 then genId bytes st fuel (k + 1)
      else some (nanoid6 bytes k, k + 1)

/-- The single atomic statement INSERT INTO urls (id, url) VALUES ($1, $2)
ON CONFLICT(url) DO UPDATE SET url = EXCLUDED.url RETURNING id. When a
row with the same url exists, that row has its url column rewritten to
the excluded url (its id is untouched) and its id is returned; otherwise
the new row is appended and its id is returned. -/
def upsert (st : Table) (i u : String) : String × Table :=
  match findUrlRow st u with
  | some r =>
      (r.id, st.map (fun r2 => if r2.url == u then Row.mk r2.id u else r2))
  | none => (i, st ++ [Row.mk i u])

/-- PgState.shorten: run the collision-retry loop, then the upsert, and
return the id produced by RETURNING id, the new table state and the next
random call index. -/
def shorten (bytes : Nat → Nat) (fuel : Nat) (st : Table) (k : Nat)
    (u : String) : Option (String × Table × Nat) :=
  match genId bytes st fuel k with
  | none => none
  | some (i, k2) => some ((upsert st i u).1, (upsert st i u).2, k2)

/-- PgState.get_url: SELECT url FROM urls WHERE id = $1 via fetch_one.
An empty result set makes fetch_one yield sqlx RowNotFound, which the
From instance wraps as ShortenError SqlError. -/
def getUrl (st : Table) (i : String) : Except ShortenError String :=
  match findIdRow st i with
  | some r => Except.ok r.url
  | none => Except.error (ShortenError.sqlError SqlErr.rowNotFound)

/-- The resolve operation as a state transformer: get_url only executes a
SELECT, so the table is returned unchanged. -/
def resolveOp (st : Table) (i : String) : Except ShortenError String × Table :=
  (getUrl st i, st)

/-- The id column of every row is distinct from the id of every later
row. -/
def idUniqueB : Table → Bool
  | [] => true
  | r :: rest => rest.all (fun r2 => r2.id != r.id) && idUniqueB rest

/-- The url column of every row is distinct from the url of every later
row; the schema enforces this through the UNIQUE constraint on url. -/
def urlUniqueB : Table → Bool
  | [] => true
  | r :: rest => rest.all (fun r2 => r2.url != r.url) && urlUniqueB rest

/-- A string of exactly 6 characters drawn from the SAFE alphabet, the
shape of every nanoid!(6) result. -/
def isNanoid6 (s : String) : Bool :=
  s.length == 6 && s.toList.all (fun c => safeAlphabet.contains c)

/-- Every id stored in the table has the nanoid!(6) shape; this holds in
every state the service itself reaches, since only shorten inserts. -/
def idsWF (st : Table) : Bool :=
  st.all (fun r => isNanoid6 r.id)

/-- The listen address constant LISTEN_ADDR of the service. -/
def listenAddr : String := "0.0.0.0:8080"

/-- An HTTP response as produced by the two handlers: a status code, an
optional Location header, an optional JSON body holding the url field of
ShortRes, and an optional plain-text body. -/
structure HttpResponse where
  status : Nat
  location : Option String
  jsonUrl : Option String
  text : Option String
deriving DecidableEq, Repr

/-- The Display rendering of an http StatusCode, used by the
IntoResponse instance of ShortenError for the plain-text body. -/
def statusText (code : Nat) : String :=
  if code == 422 then "422 Unprocessable Entity"
  else if code == 404 then "404 Not Found"
  else if code == 500 then "500 Internal Server Error"
  else toString code

/-- The IntoResponse instance of ShortenError: SqlError and IoError map
to status 500, StatusCode carries its own status; the body is the
Display form of the status. -/
def errorResponse (e : ShortenError) : HttpResponse :=
  match e with
  | ShortenError.sqlError _ => HttpResponse.mk 500 none none (some (statusText 500))
  | ShortenError.ioError _ => HttpResponse.mk 500 none none (some (statusText 500))
  | ShortenError.statusCodeError c => HttpResponse.mk c none none (some (statusText c))

/-- The POST / handler after the store call: on success, status 201 with
the JSON body composing the base address with the returned id; on any
store error, map_err replaces it with StatusCodeError 422, which the
question-mark operator propagates into the 422 response. -/
def shortenHandlerResult (res : Except ShortenError String) : HttpResponse :=
  match res with
  | Except.ok i =>
      HttpResponse.mk 201 none (some ("http://" ++ listenAddr ++ "/" ++ i)) none
  | Except.error _ => errorResponse (ShortenError.statusCodeError 422)

/-- A character acceptable to HeaderValue::from_str of the http crate: a
byte is valid when it is at least 32 and not 127, or is the tab byte 9;
every byte of the UTF-8 encoding of a character above U+007F is at least
128, hence valid, so only ASCII characters can be rejected. -/
def isValidHeaderChar (c : Char) : Bool :=
  if c.toNat ≥ 128 then true
  else if c.toNat < 32 then c.toNat == 9
  else c.toNat != 127

/-- HeaderValue parsing via url.parse::<HeaderValue>(): succeeds exactly
when every character of the string is a valid header character. -/
def parseHeaderValue (s : String) : Option String :=
  if s.toList.all isValidHeaderChar then some s else none

/-- The GET /:id handler after the store call: a store error is first
mapped to StatusCodeError 404 and propagated as the 404 response; on
success the handler builds the Location header with url.parse().unwrap(),
which panics when the url is not a valid header value — the panic is the
none outcome. -/
def redirectHandlerResult (res : Except ShortenError String) :
    Option HttpResponse :=
  match res with
  | Except.ok url =>
      match parseHeaderValue url with
      | some v => some (HttpResponse.mk 302 (some v) none none)
      | none => none
  | Except.error _ => some (errorResponse (ShortenError.statusCodeError 404))

/-- The GET /:id handler composed with PgState.get_url on the table
state. -/
def redirectHandler (st : Table) (i : String) : Option HttpResponse :=
  redirectHandlerResult (getUrl st i)

/-- N concurrent shorten calls for the same url u, as serialized by the
storage engine: each atomic upsert statement commits in some order, here
the order of the candidate list, and each call observes the id that its
own RETURNING id clause produced. The candidate ids are arbitrary, since
each caller drew its own and checked it against an arbitrary earlier
snapshot. -/
def runShortens (st : Table) (u : String) : List String → List String × Table
  | [] => ([], st)
  | c :: rest =>
      ((upsert st c u).1 :: (runShortens (upsert st c u).2 u rest).1,
        (runShortens (upsert st c u).2 u rest).2)

/-! ### Basic lemmas about the embedded table operations -/

theorem countId_eq_zero {st : Table} {i : String} :
    countId st i = 0 ↔ ∀ r ∈ st, r.id ≠ i := by
  unfold countId
  rw [List.length_eq_zero, List.filter_eq_nil_iff]
  simp

theorem countUrl_eq_zero {st : Table} {u : String} :
    countUrl st u = 0 ↔ ∀ r ∈ st, r.url ≠ u := by
  unfold countUrl
  rw [List.length_eq_zero, List.filter_eq_nil_iff]
  simp

theorem countId_cons {r : Row} {rest : Table} {i : String} :
    countId (r :: rest) i =
      (if r.id = i then 1 else 0) + countId rest i := by
  unfold countId
  rw [List.filter_cons]
  split
  · next h => simp_all [Nat.add_comm]
  · next h => simp_all

theorem countUrl_cons {r : Row} {rest : Table} {u : String} :
    countUrl (r :: rest) u =
      (if r.url = u then 1 else 0) + countUrl rest u := by
  unfold countUrl
  rw [List.filter_cons]
  split
  · next h => simp_all [Nat.add_comm]
  · next h => simp_all

theorem findIdRow_eq_none {st : Table} {i : String} :
    findIdRow st i = none ↔ ∀ r ∈ st, r.id ≠ i := by
  unfold findIdRow
  rw [List.find?_eq_none]
  simp

theorem findUrlRow_eq_none {st : Table} {u : String} :
    findUrlRow st u = none ↔ ∀ r ∈ st, r.url ≠ u := by
  unfold findUrlRow
  rw [List.find?_eq_none]
  simp

theorem findUrlRow_url {st : Table} {u : String} {r : Row}
    (h : findUrlRow st u = some r) : r.url = u := by
  have := List.find?_some h
  simpa using this

theorem findUrlRow_mem {st : Table} {u : String} {r : Row}
    (h : findUrlRow st u = some r) : r ∈ st :=
  List.mem_of_find?_eq_some h

theorem idUniqueB_cons {r : Row} {rest : Table} :
    idUniqueB (r :: rest) =
      (rest.all (fun r2 => r2.id != r.id) && idUniqueB rest) := rfl

theorem urlUniqueB_cons {r : Row} {rest : Table} :
    urlUniqueB (r :: rest) =
      (rest.all (fun r2 => r2.url != r.url) && urlUniqueB rest) := rfl

theorem countId_le_one {st : Table} (h : idUniqueB st = true) (i : String) :
    countId st i ≤ 1 := by
  induction st with
  | nil => simp [countId]
  | cons r rest ih =>
      rw [idUniqueB_cons, Bool.and_eq_true] at h
      obtain ⟨h1, h2⟩ := h
      rw [countId_cons]
      by_cases hc : r.id = i
      · have hrest : countId rest i = 0 := by
          rw [countId_eq_zero]
          intro r2 hr2
          have := List.all_eq_true.mp h1 r2 hr2
          simp at this
          rw [← hc]
          exact this
        simp [hc, hrest]
      · simpa [hc] using ih h2

theorem countUrl_le_one {st : Table} (h : urlUniqueB st = true)
    (u : String) : countUrl st u ≤ 1 := by
  induction st with
  | nil => simp [countUrl]
  | cons r rest ih =>
      rw [urlUniqueB_cons, Bool.and_eq_true] at h
      obtain ⟨h1, h2⟩ := h
      rw [countUrl_cons]
      by_cases hc : r.url = u
      · have hrest : countUrl rest u = 0 := by
          rw [countUrl_eq_zero]
          intro r2 hr2
          have := List.all_eq_true.mp h1 r2 hr2
          simp at this
          rw [← hc]
          exact this
        simp [hc, hrest]
      · simpa [hc] using ih h2

theorem findIdRow_of_mem {st : Table} (h : idUniqueB st = true) {r : Row}
    (hr : r ∈ st) : findIdRow st r.id = some r := by
  induction st with
  | nil => cases hr
  | cons r0 rest ih =>
      rw [idUniqueB_cons, Bool.and_eq_true] at h
      obtain ⟨h1, h2⟩ := h
      rcases List.mem_cons.mp hr with heq | hmem
      · subst heq
        unfold findIdRow
        exact List.find?_cons_of_pos _ (by simp)
      · have hne : r.id ≠ r0.id := by
          have := List.all_eq_true.mp h1 r hmem
          simpa using this
        unfold findIdRow at ih ⊢
        rw [List.find?_cons_of_neg]
        · exact ih h2 hmem
        · simp
          exact fun hh => hne hh.symm

theorem upsert_map_id (st : Table) (u : String) :
    (st.map (fun r2 => if r2.url == u then Row.mk r2.id u else r2)) = st := by
  induction st with
  | nil => rfl
  | cons r rest ih =>
      rw [List.map_cons, ih]
      by_cases hc : r.url = u
      · rw [if_pos (by simp [hc] : (r.url == u) = true), ← hc]
      · simp [hc]

theorem upsert_conflict {st : Table} {u : String} {r : Row}
    (h : findUrlRow st u = some r) (i : String) :
    upsert st i u = (r.id, st) := by
  unfold upsert
  rw [h, upsert_map_id]

theorem upsert_fresh {st : Table} {u : String}
    (h : findUrlRow st u = none) (i : String) :
    upsert st i u = (i, st ++ [Row.mk i u]) := by
  unfold upsert
  rw [h]

theorem isNanoid6_nanoid6 (bytes : Nat → Nat) (k : Nat) :
    isNanoid6 (nanoid6 bytes k) = true := by
  unfold isNanoid6 nanoid6
  rw [Bool.and_eq_true]
  constructor
  · rfl
  · rw [List.all_eq_true]
    intro c hc
    have hc2 : c ∈ (List.range 6).map
        (fun j => safeAlphabet.getD (bytes (6 * k + j) % 64) '_') := hc
    rw [List.mem_map] at hc2
    obtain ⟨j, _, hj⟩ := hc2
    have hlt : bytes (6 * k + j) % 64 < safeAlphabet.length := by
      have h64 : safeAlphabet.length = 64 := by decide
      rw [h64]
      exact Nat.mod_lt _ (by decide)
    rw [List.getD_eq_getElem _ _ hlt] at hj
    have : c ∈ safeAlphabet := hj ▸ List.getElem_mem hlt
    simpa using this

theorem genId_count_ne_one {bytes : Nat → Nat} {st : Table} :
    ∀ {fuel k : Nat} {i : String} {k2 : Nat},
      genId bytes st fuel k = some (i, k2) → countId st i ≠ 1 := by
  intro fuel
  induction fuel with
  | zero => intro k i k2 h; cases h
  | succ n ih =>
      intro k i k2 h
      unfold genId at h
      split at h
      · exact ih h
      · next hcond =>
          cases h
          simpa using hcond

theorem genId_countId_zero {bytes : Nat → Nat} {st : Table}
    (hu : idUniqueB st = true) {fuel k : Nat} {i : String} {k2 : Nat}
    (h : genId bytes st fuel k = some (i, k2)) : countId st i = 0 := by
  have h1 := genId_count_ne_one h
  have h2 := countId_le_one hu i
  omega

theorem genId_isNanoid6 {bytes : Nat → Nat} {st : Table} :
    ∀ {fuel k : Nat} {i : String} {k2 : Nat},
      genId bytes st fuel k = some (i, k2) → isNanoid6 i = true := by
  intro fuel
  induction fuel with
  | zero => intro k i k2 h; cases h
  | succ n ih =>
      intro k i k2 h
      unfold genId at h
      split at h
      · exact ih h
      · cases h
        exact isNanoid6_nanoid6 bytes _

theorem idUniqueB_append_one {st : Table} {i u : String}
    (hu : idUniqueB st = true) (h : ∀ r ∈ st, r.id ≠ i) :
    idUniqueB (st ++ [Row.mk i u]) = true := by
  induction st with
  | nil => simp [idUniqueB]
  | cons r rest ih =>
      rw [idUniqueB_cons, Bool.and_eq_true] at hu
      obtain ⟨h1, h2⟩ := hu
      rw [List.cons_append, idUniqueB_cons, Bool.and_eq_true]
      constructor
      · rw [List.all_eq_true]
        intro r2 hr2
        rw [List.mem_append] at hr2
        rcases hr2 with hmem | hnew
        · exact List.all_eq_true.mp h1 r2 hmem
        · rw [List.mem_singleton] at hnew
          subst hnew
          simp
          exact fun hh => (h r (List.mem_cons_self r rest)) hh.symm
      · exact ih h2 (fun r2 hr2 => h r2 (List.mem_cons_of_mem r hr2))

theorem getUrl_append_fresh {st : Table} {i u : String}
    (h : ∀ r ∈ st, r.id ≠ i) :
    getUrl (st ++ [Row.mk i u]) i = Except.ok u := by
  unfold getUrl findIdRow
  rw [List.find?_append]
  have h1 : st.find? (fun r => r.id == i) = none := findIdRow_eq_none.mpr h
  rw [h1]
  simp

theorem findUrlRow_append_self {st : Table} {u : String}
    (h : findUrlRow st u = none) (i : String) :
    findUrlRow (st ++ [Row.mk i u]) u = some (Row.mk i u) := by
  unfold findUrlRow at h ⊢
  rw [List.find?_append, h]
  simp

theorem countUrl_append {st st2 : Table} {u : String} :
    countUrl (st ++ st2) u = countUrl st u + countUrl st2 u := by
  unfold countUrl
  rw [List.filter_append, List.length_append]

theorem countUrl_eq_one_of_mem {st : Table} (hurl : urlUniqueB st = true)
    {r : Row} {u : String} (hr : r ∈ st) (hu : r.url = u) :
    countUrl st u = 1 := by
  have hle := countUrl_le_one hurl u
  have hne : countUrl st u ≠ 0 := fun h0 => (countUrl_eq_zero.mp h0 r hr) hu
  omega

theorem shorten_some {bytes : Nat → Nat} {fuel : Nat} {st : Table}
    {k : Nat} {u i : String} {st2 : Table} {k2 : Nat}
    (h : shorten bytes fuel st k u = some (i, st2, k2)) :
    ∃ c, genId bytes st fuel k = some (c, k2) ∧
      i = (upsert st c u).1 ∧ st2 = (upsert st c u).2 := by
  unfold shorten at h
  cases hg : genId bytes st fuel k with
  | none => rw [hg] at h; cases h
  | some p =>
      obtain ⟨c, k3⟩ := p
      rw [hg] at h
      simp only [Option.some.injEq, Prod.mk.injEq] at h
      obtain ⟨h1, h2, h3⟩ := h
      exact ⟨c, by rw [← h3], h1.symm, h2.symm⟩

theorem runShortens_conflict {st : Table} {u : String} {r : Row}
    (hf : findUrlRow st u = some r) (cs : List String) :
    runShortens st u cs = (List.replicate cs.length r.id, st) := by
  induction cs with
  | nil => rfl
  | cons c rest ih =>
      unfold runShortens
      rw [upsert_conflict hf c]
      simp only [ih]
      rfl

theorem genId_succ (bytes : Nat → Nat) (st : Table) (fuel k : Nat) :
    genId bytes st (fuel + 1) k =
      if countId st (nanoid6 bytes k) == 1 then genId bytes st fuel (k + 1)
      else some (nanoid6 bytes k, k + 1) := rfl

theorem parseHeaderValue_idem {s v : String}
    (h : parseHeaderValue s = some v) : parseHeaderValue s = some s := by
  unfold parseHeaderValue at h ⊢
  split at h
  · next hall => rw [if_pos hall]
  · cases h

/-! ### The claims -/

/-- C1: for every string u — in particular every non-empty one — and
every table state with pairwise distinct ids, when shorten(u) succeeds
and returns identifier i, resolving i in the resulting state yields
exactly u: resolve(shorten(u)) == u. -/
theorem roundTrip (bytes : Nat → Nat) (fuel : Nat) (st : Table) (k : Nat)
    (u i : String) (st2 : Table) (k2 : Nat)
    (hid : idUniqueB st = true)
    (hrun : shorten bytes fuel st k u = some (i, st2, k2)) :
    getUrl st2 i = Except.ok u := by
  unfold shorten at hrun
  cases hg : genId bytes st fuel k with
  | none => rw [hg] at hrun; cases hrun
  | some p =>
      obtain ⟨c, k3⟩ := p
      rw [hg] at hrun
      simp only [Option.some.injEq, Prod.mk.injEq] at hrun
      obtain ⟨h1, h2, h3⟩ := hrun
      cases hf : findUrlRow st u with
      | some r =>
          rw [upsert_conflict hf c] at h1 h2
          subst h1 h2
          unfold getUrl
          rw [findIdRow_of_mem hid (findUrlRow_mem hf)]
          exact congrArg Except.ok (findUrlRow_url hf)
      | none =>
          rw [upsert_fresh hf c] at h1 h2
          subst h1 h2
          have hzero : countId st c = 0 := genId_countId_zero hid hg
          exact getUrl_append_fresh (countId_eq_zero.mp hzero)

/-- Witness for roundTrip: a concrete successful run on the empty table
with the constant byte stream 12, producing id aaaaaa for
https://example.com, which then resolves back. -/
theorem roundTrip_witness :
    getUrl [Row.mk "aaaaaa" "https://example.com"] "aaaaaa" =
      Except.ok "https://example.com" :=
  roundTrip (constStream 12) 1 [] 0 "https://example.com" "aaaaaa"
    [Row.mk "aaaaaa" "https://example.com"] 1 (by decide) (by decide)

/-- C2: two successive successful shorten(u) calls return the same
identifier, the second call leaves the table unchanged, and after both
calls exactly one row carries url u. -/
theorem idempotentShorten (bytes : Nat → Nat) (fuel1 fuel2 : Nat)
    (st : Table) (k : Nat) (u i1 i2 : String) (st1 st2 : Table)
    (k1 k2 : Nat)
    (hid : idUniqueB st = true) (hurl : urlUniqueB st = true)
    (h1 : shorten bytes fuel1 st k u = some (i1, st1, k1))
    (h2 : shorten bytes fuel2 st1 k1 u = some (i2, st2, k2)) :
    i2 = i1 ∧ st2 = st1 ∧ countUrl st1 u = 1 := by
  obtain ⟨c1, hg1, hi1, hst1⟩ := shorten_some h1
  obtain ⟨c2, hg2, hi2, hst2⟩ := shorten_some h2
  cases hf : findUrlRow st u with
  | some r =>
      have hcount : countUrl st u = 1 :=
        countUrl_eq_one_of_mem hurl (findUrlRow_mem hf) (findUrlRow_url hf)
      rw [upsert_conflict hf c1] at hi1 hst1
      subst hst1
      rw [upsert_conflict hf c2] at hi2 hst2
      exact ⟨hi2.trans hi1.symm, hst2, hcount⟩
  | none =>
      rw [upsert_fresh hf c1] at hi1 hst1
      subst hst1
      have hf2 : findUrlRow (st ++ [Row.mk c1 u]) u = some (Row.mk c1 u) :=
        findUrlRow_append_self hf c1
      rw [upsert_conflict hf2 c2] at hi2 hst2
      have hcu : countUrl st u = 0 :=
        countUrl_eq_zero.mpr (findUrlRow_eq_none.mp hf)
      refine ⟨hi2.trans hi1.symm, hst2, ?_⟩
      rw [countUrl_append, hcu]
      simp [countUrl]

/-- Witness for idempotentShorten: two concrete runs on the empty table
with the identity byte stream; the first inserts id _-0123 for the url,
the second generates candidate 456789, hits the url conflict, and
returns _-0123 again. -/
theorem idempotentShorten_witness :
    ("_-0123" : String) = "_-0123" ∧
    ([Row.mk "_-0123" "https://example.com"] : Table) =
      [Row.mk "_-0123" "https://example.com"] ∧
    countUrl [Row.mk "_-0123" "https://example.com"] "https://example.com" = 1 :=
  idempotentShorten natStream 1 1 [] 0 "https://example.com"
    "_-0123" "_-0123"
    [Row.mk "_-0123" "https://example.com"]
    [Row.mk "_-0123" "https://example.com"] 1 2
    (by decide) (by decide) (by decide) (by decide)

/-- C3: shorten preserves distinctness of the id column; on the
fresh-insert path the inserted id was checked absent from the table (its
count was zero) and the new row is simply appended; and resolve leaves
the table untouched, so it preserves every table invariant. -/
theorem idUniqueInvariant (bytes : Nat → Nat) (fuel : Nat) (st : Table)
    (k : Nat) (u i j : String) (st2 : Table) (k2 : Nat)
    (hid : idUniqueB st = true)
    (hrun : shorten bytes fuel st k u = some (i, st2, k2)) :
    idUniqueB st2 = true ∧
    (findUrlRow st u = none →
      countId st i = 0 ∧ st2 = st ++ [Row.mk i u]) ∧
    (resolveOp st2 j).2 = st2 := by
  obtain ⟨c, hg, hi, hst⟩ := shorten_some hrun
  cases hf : findUrlRow st u with
  | some r =>
      rw [upsert_conflict hf c] at hi hst
      subst hst
      refine ⟨hid, fun hnone => ?_, rfl⟩
      cases hnone
  | none =>
      rw [upsert_fresh hf c] at hi hst
      have hzero : countId st c = 0 := genId_countId_zero hid hg
      have huniq : idUniqueB (st ++ [Row.mk c u]) = true :=
        idUniqueB_append_one hid (countId_eq_zero.mp hzero)
      subst hi
      subst hst
      exact ⟨huniq, fun _ => ⟨hzero, rfl⟩, rfl⟩

/-- Witness for idUniqueInvariant: a concrete run on the empty table. -/
theorem idUniqueInvariant_witness :
    idUniqueB [Row.mk "aaaaaa" "https://example.com"] = true ∧
    (findUrlRow [] "https://example.com" = none →
      countId [] "aaaaaa" = 0 ∧
      ([Row.mk "aaaaaa" "https://example.com"] : Table) =
        [] ++ [Row.mk "aaaaaa" "https://example.com"]) ∧
    (resolveOp [Row.mk "aaaaaa" "https://example.com"] "zzzzzz").2 =
      [Row.mk "aaaaaa" "https://example.com"] :=
  idUniqueInvariant (constStream 12) 1 [] 0 "https://example.com"
    "aaaaaa" "zzzzzz" [Row.mk "aaaaaa" "https://example.com"] 1
    (by decide) (by decide)

/-- C4 counterexample: the claim says the candidate is discarded for
every nonzero count, but the source retries only while the count equals
exactly 1. In a table state holding two rows with the same id — a state
the schema admits, since it declares no uniqueness on the id column —
the candidate aaaaaa has count 2, yet the loop accepts it and proceeds
to the insert step. -/
theorem loopNonzeroCount_counterexample :
    countId [Row.mk "aaaaaa" "u1", Row.mk "aaaaaa" "u2"] "aaaaaa" = 2 ∧
    genId (constStream 12)
      [Row.mk "aaaaaa" "u1", Row.mk "aaaaaa" "u2"] 1 0 =
      some ("aaaaaa", 1) := by decide

/-- C4 amended: the loop discards the candidate and generates a fresh
one exactly when the count of existing rows with the candidate id equals
1 — not for every nonzero count — and proceeds to the insert step
whenever the count differs from 1; in any table state whose ids are
pairwise distinct this coincides with the claim, and every accepted
candidate then has count zero. -/
theorem loopRetryExactlyOnCountOne (bytes : Nat → Nat) (st : Table)
    (fuel k : Nat) (i : String) (k2 : Nat)
    (hid : idUniqueB st = true) :
    (countId st (nanoid6 bytes k) = 1 →
      genId bytes st (fuel + 1) k = genId bytes st fuel (k + 1)) ∧
    (countId st (nanoid6 bytes k) ≠ 1 →
      genId bytes st (fuel + 1) k = some (nanoid6 bytes k, k + 1)) ∧
    (genId bytes st (fuel + 1) k = some (i, k2) → countId st i = 0) := by
  refine ⟨fun h1 => ?_, fun h2 => ?_, fun h3 => genId_countId_zero hid h3⟩
  · rw [genId_succ, if_pos (by simpa using h1)]
  · rw [genId_succ, if_neg (by simpa using h2)]

/-- Witness for loopRetryExactlyOnCountOne on the empty table: the
candidate aaaaaa has count 0, so the loop accepts it at once. -/
theorem loopRetryExactlyOnCountOne_witness :
    (countId [] (nanoid6 (constStream 12) 0) = 1 →
      genId (constStream 12) [] (0 + 1) 0 = genId (constStream 12) [] 0 (0 + 1)) ∧
    (countId [] (nanoid6 (constStream 12) 0) ≠ 1 →
      genId (constStream 12) [] (0 + 1) 0 = some (nanoid6 (constStream 12) 0, 0 + 1)) ∧
    (genId (constStream 12) [] (0 + 1) 0 = some ("aaaaaa", 1) →
      countId [] "aaaaaa" = 0) :=
  loopRetryExactlyOnCountOne (constStream 12) [] 0 0 "aaaaaa" 1 (by decide)

/-- C5: when the freshly generated candidate meets a url conflict on
insert, shorten leaves the table unchanged (the conflicting row has its
url rewritten to itself), discards the candidate, and returns the
existing row's id. -/
theorem conflictReturnsExistingId (bytes : Nat → Nat) (fuel : Nat)
    (st : Table) (k : Nat) (u i : String) (st2 : Table) (k2 : Nat)
    (r : Row) (hf : findUrlRow st u = some r)
    (hrun : shorten bytes fuel st k u = some (i, st2, k2)) :
    i = r.id ∧ st2 = st := by
  obtain ⟨c, hg, hi, hst⟩ := shorten_some hrun
  rw [upsert_conflict hf c] at hi hst
  exact ⟨hi, hst⟩

/-- Witness for conflictReturnsExistingId: a concrete run against a
table already holding the url under id ABCDEF; the generated candidate
aaaaaa differs from the returned id ABCDEF, showing the candidate is
discarded. -/
theorem conflictReturnsExistingId_witness :
    ("aaaaaa" : String) ≠ "ABCDEF" ∧
    (("ABCDEF" : String) = (Row.mk "ABCDEF" "https://example.com").id ∧
      ([Row.mk "ABCDEF" "https://example.com"] : Table) =
        [Row.mk "ABCDEF" "https://example.com"]) :=
  ⟨by decide,
    conflictReturnsExistingId (constStream 12) 1
      [Row.mk "ABCDEF" "https://example.com"] 0 "https://example.com"
      "ABCDEF" [Row.mk "ABCDEF" "https://example.com"] 1
      (Row.mk "ABCDEF" "https://example.com") (by decide) (by decide)⟩

/-- C6: for every identifier matching no row, get_url yields the
RowNotFound error, a value distinct from every persistence-failure
error — the caller can tell the two kinds apart. -/
theorem notFoundDistinguished (st : Table) (i : String)
    (h : findIdRow st i = none) :
    getUrl st i = Except.error (ShortenError.sqlError SqlErr.rowNotFound) ∧
    ∀ msg, ShortenError.sqlError SqlErr.rowNotFound ≠
      ShortenError.sqlError (SqlErr.persistenceFailure msg) := by
  constructor
  · unfold getUrl
    rw [h]
  · intro msg
    simp

/-- Witness for notFoundDistinguished: the id ZZZZZZ on the empty
table. -/
theorem notFoundDistinguished_witness :
    getUrl [] "ZZZZZZ" =
      Except.error (ShortenError.sqlError SqlErr.rowNotFound) ∧
    ∀ msg, ShortenError.sqlError SqlErr.rowNotFound ≠
      ShortenError.sqlError (SqlErr.persistenceFailure msg) :=
  notFoundDistinguished [] "ZZZZZZ" (by decide)

/-- C7: every identifier returned by a successful shorten call is a
6-character string over the URL-safe SAFE alphabet — on the fresh-insert
path because nanoid!(6) always produces such a string, and on the
conflict path because every id already stored has that shape. -/
theorem shortenReturnsNanoid6 (bytes : Nat → Nat) (fuel : Nat)
    (st : Table) (k : Nat) (u i : String) (st2 : Table) (k2 : Nat)
    (hwf : idsWF st = true)
    (hrun : shorten bytes fuel st k u = some (i, st2, k2)) :
    isNanoid6 i = true := by
  obtain ⟨c, hg, hi, hst⟩ := shorten_some hrun
  cases hf : findUrlRow st u with
  | some r =>
      rw [upsert_conflict hf c] at hi
      subst hi
      unfold idsWF at hwf
      have := List.all_eq_true.mp hwf r (findUrlRow_mem hf)
      simpa using this
  | none =>
      rw [upsert_fresh hf c] at hi
      subst hi
      exact genId_isNanoid6 hg

/-- Witness for shortenReturnsNanoid6: the concrete run on the empty
table returning aaaaaa. -/
theorem shortenReturnsNanoid6_witness : isNanoid6 "aaaaaa" = true :=
  shortenReturnsNanoid6 (constStream 12) 1 [] 0 "https://example.com"
    "aaaaaa" [Row.mk "aaaaaa" "https://example.com"] 1
    (by decide) (by decide)

/-- C8: the facade maps store results exactly as specified: POST success
gives 201 with a JSON body composing the service base address with the
returned id; any store error on POST gives 422; GET success gives 302
with the Location header set to the resolved url (whenever that url is a
valid header value, the only case in which the handler returns at all);
and the handler maps every store failure on GET, RowNotFound included,
to 404. -/
theorem httpFacadeMapping (st : Table) (j i u2 : String)
    (e e2 : ShortenError)
    (hok : getUrl st j = Except.ok u2)
    (hparse : parseHeaderValue u2 = some u2) :
    listenAddr = "0.0.0.0:8080" ∧
    shortenHandlerResult (Except.ok i) =
      HttpResponse.mk 201 none
        (some ("http://" ++ listenAddr ++ "/" ++ i)) none ∧
    shortenHandlerResult (Except.error e) =
      HttpResponse.mk 422 none none (some "422 Unprocessable Entity") ∧
    redirectHandler st j =
      some (HttpResponse.mk 302 (some u2) none none) ∧
    redirectHandlerResult (Except.error e2) =
      some (HttpResponse.mk 404 none none (some "404 Not Found")) := by
  refine ⟨rfl, rfl, rfl, ?_, rfl⟩
  simp [redirectHandler, redirectHandlerResult, hok, hparse]

/-- Witness for httpFacadeMapping at a concrete one-row table. -/
theorem httpFacadeMapping_witness :
    listenAddr = "0.0.0.0:8080" ∧
    shortenHandlerResult (Except.ok "aaaaaa") =
      HttpResponse.mk 201 none
        (some ("http://" ++ listenAddr ++ "/" ++ "aaaaaa")) none ∧
    shortenHandlerResult
        (Except.error (ShortenError.sqlError SqlErr.rowNotFound)) =
      HttpResponse.mk 422 none none (some "422 Unprocessable Entity") ∧
    redirectHandler [Row.mk "aaaaaa" "https://a.com"] "aaaaaa" =
      some (HttpResponse.mk 302 (some "https://a.com") none none) ∧
    redirectHandlerResult
        (Except.error (ShortenError.sqlError SqlErr.rowNotFound)) =
      some (HttpResponse.mk 404 none none (some "404 Not Found")) :=
  httpFacadeMapping [Row.mk "aaaaaa" "https://a.com"] "aaaaaa" "aaaaaa"
    "https://a.com" (ShortenError.sqlError SqlErr.rowNotFound)
    (ShortenError.sqlError SqlErr.rowNotFound) rfl (by decide)

/-- C9: when N concurrent callers shorten the same previously unseen
url u and the storage engine serializes their atomic upsert statements
in any order, with arbitrary candidate ids, exactly one row for u exists
afterward — the winner's — and every call returns the winner's id. -/
theorem concurrentSameUrl (st : Table) (u c : String) (cs : List String)
    (h0 : findUrlRow st u = none) :
    (runShortens st u (c :: cs)).1 = List.replicate (cs.length + 1) c ∧
    countUrl (runShortens st u (c :: cs)).2 u = 1 ∧
    findUrlRow (runShortens st u (c :: cs)).2 u = some (Row.mk c u) := by
  have hcu : countUrl st u = 0 :=
    countUrl_eq_zero.mpr (findUrlRow_eq_none.mp h0)
  have hf2 : findUrlRow (st ++ [Row.mk c u]) u = some (Row.mk c u) :=
    findUrlRow_append_self h0 c
  unfold runShortens
  rw [upsert_fresh h0 c]
  rw [runShortens_conflict hf2 cs]
  refine ⟨?_, ?_, hf2⟩
  · rw [List.replicate_succ]
  · rw [countUrl_append, hcu]
    simp [countUrl]

/-- Witness for concurrentSameUrl: three serialized callers with
candidates aaaaaa, bbbbbb and cccccc on the empty table; all three
receive aaaaaa and one row survives. -/
theorem concurrentSameUrl_witness :
    (runShortens [] "https://example.com"
      ["aaaaaa", "bbbbbb", "cccccc"]).1 = List.replicate 3 "aaaaaa" ∧
    countUrl (runShortens [] "https://example.com"
      ["aaaaaa", "bbbbbb", "cccccc"]).2 "https://example.com" = 1 ∧
    findUrlRow (runShortens [] "https://example.com"
        ["aaaaaa", "bbbbbb", "cccccc"]).2 "https://example.com" =
      some (Row.mk "aaaaaa" "https://example.com") :=
  concurrentSameUrl [] "https://example.com" "aaaaaa"
    ["bbbbbb", "cccccc"] (by decide)

/-- C10: when the url stored for an identifier resolves but is not a
valid HTTP header value, the GET handler panics while building the
Location header — the none outcome — rather than producing an error
response; it returns normally exactly when the stored url parses as a
header value. -/
theorem redirectHeaderPanic (st : Table) (i u : String)
    (hok : getUrl st i = Except.ok u) :
    (redirectHandler st i = none ↔ parseHeaderValue u = none) := by
  unfold redirectHandler redirectHandlerResult
  rw [hok]
  cases hp : parseHeaderValue u with
  | some v => simp [hp]
  | none => simp [hp]

/-- Witness for redirectHeaderPanic: a stored url holding a newline is
rejected by header parsing, and the handler run on it panics. -/
theorem redirectHeaderPanic_witness :
    redirectHandler [Row.mk "aaaaaa" "https://a.com/x\ny"] "aaaaaa" = none ↔
    parseHeaderValue "https://a.com/x\ny" = none :=
  redirectHeaderPanic [Row.mk "aaaaaa" "https://a.com/x\ny"] "aaaaaa"
    "https://a.com/x\ny" rfl

end Shortener
